import Mathlib

/-!
Verification of the semantic-layer SQL compiler (`generate_sql_query` and its
helpers).  The Python source is embedded shallowly: strings are Lean `String`s,
dictionaries become structures, raised `ValueError`s become an explicit error
type whose constructors follow the error taxonomy, and the Python `set` used to
collect table names is modelled by its insertion-ordered contents together with
an explicit enumeration function (the iteration order of a Python `set` over
strings is not specified, so every theorem that depends on it quantifies over
an arbitrary permutation-producing enumeration).
-/

namespace ParseSql

/-! ### String primitives modelling the Python operations used by the source -/

/-- `startsWithB p l` decides whether the character list `p` begins `l`. -/
def startsWithB : List Char → List Char → Bool
  | [], _ => true
  | _ :: _, [] => false
  | a :: as, b :: bs => a == b && startsWithB as bs

/-- `isSuffixB p l` decides whether `p` ends `l`; models Python `str.endswith`. -/
def isSuffixB (p l : List Char) : Bool :=
  startsWithB p.reverse l.reverse

/-- `isSegB p l` decides whether `p` occurs contiguously anywhere inside `l`;
models Python's `in` test on strings. -/
def isSegB (p : List Char) : List Char → Bool
  | [] => p.isEmpty
  | c :: rest => startsWithB p (c :: rest) || isSegB p rest

/-- Index of the first occurrence of character `c`, if any; models the search
underlying Python `str.find` for single-character needles. -/
def findIdxOf (c : Char) : List Char → Option Nat
  | [] => none
  | a :: rest => if a == c then some 0 else (findIdxOf c rest).map (· + 1)

/-- Python `s.find(c, start)`: first index `≥ start` holding `c`, as an Option. -/
def pyFindFrom (l : List Char) (c : Char) (start : Nat) : Option Nat :=
  (findIdxOf c (l.drop start)).map (· + start)

/-- Normalise a Python slice bound: negative indices count from the end and the
result is clamped into `[0, len]`. -/
def pySliceIdx (len : Nat) (k : Int) : Nat :=
  if k < 0 then ((len : Int) + k).toNat else min k.toNat len

/-- Python `s[i:j]` (step 1). -/
def pySlice (s : String) (i j : Int) : String :=
  ⟨(s.data.take (pySliceIdx s.data.length j)).drop (pySliceIdx s.data.length i)⟩

/-- Python `s.strip()`: remove leading and trailing whitespace. -/
def pyStrip (s : String) : String :=
  ⟨((s.data.dropWhile Char.isWhitespace).reverse.dropWhile Char.isWhitespace).reverse⟩

/-- Core of Python `s.replace(pat, "")` for a non-empty pattern `p :: ps`.
The `Nat` argument is a skip counter: after a match the rest of the matched
pattern is consumed without further matching, exactly as `str.replace` resumes
scanning after the replaced occurrence. -/
def removeGo (p : Char) (ps : List Char) : Nat → List Char → List Char
  | _, [] => []
  | Nat.succ k, _ :: rest => removeGo p ps k rest
  | 0, c :: rest =>
    if startsWithB (p :: ps) (c :: rest) then
      removeGo p ps ps.length rest
    else
      c :: removeGo p ps 0 rest

/-- Python `s.replace(pat, "")`: removes every (leftmost, non-overlapping)
occurrence of `pat` from `s`. -/
def pyReplace (s pat : String) : String :=
  match pat.data with
  | [] => s
  | p :: ps => ⟨removeGo p ps 0 s.data⟩

/-- Concatenation of a list of strings (the source accumulates the FROM/JOIN
text with `+=` in a loop). -/
def strConcat : List String → String
  | [] => ""
  | s :: rest => s ++ strConcat rest

/-! ### Data model (§3 of the design: the dictionaries consumed by the source) -/

/-- A metric or dimension definition: `{"name": …, "sql": …, "table": …}`. -/
structure SqlDef where
  name : String
  sql : String
  table : String
deriving DecidableEq

/-- A join edge: `{"one": …, "many": …, "join": …}`. -/
structure JoinDef where
  one : String
  many : String
  join : String
deriving DecidableEq

/-- The semantic layer dictionary. -/
structure SemanticLayer where
  metrics : List SqlDef
  dimensions : List SqlDef
  joins : List JoinDef
deriving DecidableEq

/-- A filter value: Python `str`, number, or bool (`isinstance(value, str)`
decides quoting; everything else is rendered with `str(value)`). -/
inductive FilterValue where
  | str (s : String)
  | num (n : Int)
  | boolVal (b : Bool)
deriving DecidableEq

/-- One filter clause: `{"field": …, "operator": …, "value": …}`. -/
structure Filter where
  field : String
  operator : String
  value : FilterValue
deriving DecidableEq

/-- The query dictionary: requested metrics, dimensions and filters. -/
structure Query where
  metrics : List String
  dimensions : List String
  filters : List Filter
deriving DecidableEq

/-- A date grain parsed from a `__week` / `__month` / `__year` suffix. -/
inductive Grain where
  | week
  | month
  | year
deriving DecidableEq

/-- SQL spelling of a grain, as interpolated into `DATE_TRUNC(…, GRAIN)`. -/
def Grain.toSql : Grain → String
  | Grain.week => "WEEK"
  | Grain.month => "MONTH"
  | Grain.year => "YEAR"

/-- The error taxonomy (§7).  The source raises `ValueError` with a message at
each site; the constructors record the data interpolated into those messages. -/
inductive CompileError where
  | unknownMetric (name : String)
  | unknownDimension (name : String)
  | unknownFilterField (name : String)
  | missingJoin (anchor other : String)
  | noTables
deriving DecidableEq

/-! ### The source's helper functions -/

/-- `_parse_date_trunc`: if the field name ends with `__week` / `__month` /
`__year`, return `field_name.replace(suffix, "")` paired with the grain,
otherwise the name unchanged with no grain.  Note the source uses
`str.replace`, which removes every occurrence of the suffix string. -/
def parse_date_trunc (fieldName : String) : String × Option Grain :=
  if isSuffixB "__week".data fieldName.data then
    (pyReplace fieldName "__week", some Grain.week)
  else if isSuffixB "__month".data fieldName.data then
    (pyReplace fieldName "__month", some Grain.month)
  else if isSuffixB "__year".data fieldName.data then
    (pyReplace fieldName "__year", some Grain.year)
  else
    (fieldName, none)

/-- `_get_definition`: first definition in the list whose `name` equals the
requested name, if any. -/
def get_definition (name : String) (definitions : List SqlDef) : Option SqlDef :=
  definitions.find? (fun d => d.name == name)

/-- `_find_join_definition`: first join edge connecting the two tables in
either direction. -/
def find_join_definition (tableA tableB : String) (joinDefs : List JoinDef) : Option JoinDef :=
  joinDefs.find? (fun jd =>
    (jd.one == tableA && jd.many == tableB) || (jd.one == tableB && jd.many == tableA))

/-! ### The body of `generate_sql_query`, split along the source's local steps -/

/-- The metric-collection loop: resolve each requested metric name, failing
with the source's "Metric definition … not found" error on the first miss. -/
def resolveMetrics (requested : List String) (defs : List SqlDef) :
    Except CompileError (List SqlDef) :=
  match requested with
  | [] => .ok []
  | n :: rest =>
    match get_definition n defs with
    | none => .error (CompileError.unknownMetric n)
    | some d => (resolveMetrics rest defs).map (fun ds => d :: ds)

/-- The dimension-collection loop: parse an optional grain suffix, resolve the
base name, and keep `(dim_def, date_grain, dim_name)` triples as the source
does; the error carries the original (still suffixed) requested name. -/
def resolveDimensions (requested : List String) (defs : List SqlDef) :
    Except CompileError (List (SqlDef × Option Grain × String)) :=
  match requested with
  | [] => .ok []
  | n :: rest =>
    match get_definition (parse_date_trunc n).1 defs with
    | none => .error (CompileError.unknownDimension n)
    | some d => (resolveDimensions rest defs).map (fun ds => (d, (parse_date_trunc n).2, n) :: ds)

/-- `tables_used.add(t)`: a Python `set` holds each element once; we represent
its contents by the insertion-ordered duplicate-free list. -/
def insertTable (s : List String) (t : String) : List String :=
  if t ∈ s then s else s ++ [t]

/-- Contents of the `tables_used` set after adding every table in order
(metric tables first, then dimension tables, as the two source loops run). -/
def tableSetOf (tables : List String) : List String :=
  tables.foldl insertTable []

/-- The metric SELECT-expression builder (source lines 99–115): if the SQL
expression contains `(` and `)`, split it at the first `(` and its following
`)` into `function` and `column` (both stripped), qualify `column` with the
metric's table when the query spans several tables, and reconstruct
`function(column)`; otherwise qualify the whole expression.  When `)` does not
occur after the first `(`, Python's `find` yields `-1` and the slice
`sql_expr[func_start + 1 : -1]` drops the final character, which `pySlice`
reproduces. -/
def qualifyMetricExpr (multipleTables : Bool) (table sqlExpr : String) : String :=
  if (findIdxOf '(' sqlExpr.data).isSome && (findIdxOf ')' sqlExpr.data).isSome then
    -- the guard makes the first find succeed, so the default 0 is never used
    let funcStart : Nat := (findIdxOf '(' sqlExpr.data).getD 0
    let funcEnd : Int :=
      match pyFindFrom sqlExpr.data ')' funcStart with
      | some i => (i : Int)
      | none => -1
    let fn := pyStrip (pySlice sqlExpr 0 (funcStart : Int))
    let column := pyStrip (pySlice sqlExpr ((funcStart : Int) + 1) funcEnd)
    let column := if multipleTables then table ++ "." ++ column else column
    fn ++ "(" ++ column ++ ")"
  else
    if multipleTables then table ++ "." ++ sqlExpr else sqlExpr

/-- The dimension expression (source lines 122–131): qualify with the table
when several tables are involved, then wrap in `DATE_TRUNC` when a grain was
parsed. -/
def dimensionExpr (multipleTables : Bool) (table sqlExpr : String)
    (grain : Option Grain) : String :=
  let e := if multipleTables then table ++ "." ++ sqlExpr else sqlExpr
  match grain with
  | some g => "DATE_TRUNC(" ++ e ++ ", " ++ Grain.toSql g ++ ")"
  | none => e

/-- `metrics_sql`: one `expr AS name` item per resolved metric. -/
def metricSelectItems (multipleTables : Bool) (defs : List SqlDef) : List String :=
  defs.map (fun d => qualifyMetricExpr multipleTables d.table d.sql ++ " AS " ++ d.name)

/-- `dimensions_sql`: one `expr AS requested_name` item per resolved dimension
(the alias is always the originally requested, possibly suffixed, name). -/
def dimensionSelectItems (multipleTables : Bool)
    (resolved : List (SqlDef × Option Grain × String)) : List String :=
  resolved.map (fun r => dimensionExpr multipleTables r.1.table r.1.sql r.2.1 ++ " AS " ++ r.2.2)

/-- `group_by_terms`: the (possibly truncated) expression of every resolved
dimension, appended unconditionally. -/
def groupByTermsOf (multipleTables : Bool)
    (resolved : List (SqlDef × Option Grain × String)) : List String :=
  resolved.map (fun r => dimensionExpr multipleTables r.1.table r.1.sql r.2.1)

/-- The JOIN-building loop (source lines 154–163): for each non-anchor table
look up an edge to the anchor, retry with swapped arguments, and fail with the
"No join definition found between …" error when both lookups miss. -/
def joinLinesFor (primary : String) (joins : List JoinDef) :
    List String → Except CompileError (List String)
  | [] => .ok []
  | t :: rest =>
    match find_join_definition primary t joins with
    | some jd =>
      (joinLinesFor primary joins rest).map
        (fun ls => ("\nJOIN " ++ t ++ " ON " ++ jd.join) :: ls)
    | none =>
      match find_join_definition t primary joins with
      | some jd =>
        (joinLinesFor primary joins rest).map
          (fun ls => ("\nJOIN " ++ t ++ " ON " ++ jd.join) :: ls)
      | none => .error (CompileError.missingJoin primary t)

/-- The FROM/JOIN construction (source lines 142–163) applied to
`list(tables_used)`: error when no table was collected, plain `FROM` for a
single table, anchor plus JOIN lines otherwise. -/
def buildFromClause (tables : List String) (joins : List JoinDef) :
    Except CompileError String :=
  match tables with
  | [] => .error CompileError.noTables
  | [t] => .ok ("FROM " ++ t)
  | primary :: rest =>
    (joinLinesFor primary joins rest).map (fun ls => "FROM " ++ primary ++ strConcat ls)

/-- Value rendering (source lines 187–190 / 208–211): strings are quoted
verbatim, numbers and booleans use `str(value)`. -/
def renderFilterValue : FilterValue → String
  | FilterValue.str s => "'" ++ s ++ "'"
  | FilterValue.num n => toString n
  | FilterValue.boolVal b => if b then "True" else "False"

/-- The filter loop (source lines 169–217): strip a grain suffix from the
field, look the base up in dimensions then in metrics, route the rendered
predicate to WHERE (dimension) or HAVING (metric), and fail with the
"Filter field … not found" error when neither list matches. -/
def processFilters (multipleTables : Bool) (sl : SemanticLayer) :
    List Filter → Except CompileError (List String × List String)
  | [] => .ok ([], [])
  | f :: rest =>
    let parsed := parse_date_trunc f.field
    match get_definition parsed.1 sl.dimensions with
    | some d =>
      (processFilters multipleTables sl rest).map (fun wh =>
        ((dimensionExpr multipleTables d.table d.sql parsed.2 ++ " " ++ f.operator ++ " "
            ++ renderFilterValue f.value) :: wh.1,
          wh.2))
    | none =>
      match get_definition parsed.1 sl.metrics with
      | some m =>
        (processFilters multipleTables sl rest).map (fun wh =>
          (wh.1,
            (qualifyMetricExpr multipleTables m.table m.sql ++ " " ++ f.operator ++ " "
              ++ renderFilterValue f.value) :: wh.2))
      | none => .error (CompileError.unknownFilterField f.field)

/-- The clause-level result of a compile: the source's local variables just
before final assembly. -/
structure QueryParts where
  selectClause : String
  fromClause : String
  whereClauses : List String
  groupByTerms : List String
  havingClauses : List String
deriving DecidableEq

/-- The whole compile up to (but not including) final string assembly.  The
`enum` parameter models the iteration order of the Python `set`
`tables_used`: `list(tables_used)` is `enum` applied to the set's contents (in
insertion order); CPython specifies no order, so faithfulness only requires
`enum` to produce a permutation (see `EnumOK`). -/
def compileParts (enum : List String → List String) (q : Query) (sl : SemanticLayer) :
    Except CompileError QueryParts :=
  match resolveMetrics q.metrics sl.metrics with
  | .error e => .error e
  | .ok mdefs =>
    match resolveDimensions q.dimensions sl.dimensions with
    | .error e => .error e
    | .ok resolved =>
      let tablesUsed := tableSetOf (mdefs.map SqlDef.table ++ resolved.map (fun r => r.1.table))
      let multipleTables : Bool := decide (1 < tablesUsed.length)
      let selectItems :=
        metricSelectItems multipleTables mdefs ++ dimensionSelectItems multipleTables resolved
      let selectClause := if selectItems.isEmpty then "*" else String.intercalate ", " selectItems
      match buildFromClause (enum tablesUsed) sl.joins with
      | .error e => .error e
      | .ok fromClause =>
        match processFilters multipleTables sl q.filters with
        | .error e => .error e
        | .ok wh =>
          .ok ⟨selectClause, fromClause, wh.1, groupByTermsOf multipleTables resolved, wh.2⟩

/-- Final assembly (source lines 220–229): SELECT and FROM always, then WHERE,
GROUP BY and HAVING lines only when their clause lists are non-empty. -/
def assembleSql (p : QueryParts) : String :=
  "SELECT " ++ p.selectClause ++ "\n" ++ p.fromClause
    ++ (if p.whereClauses.isEmpty then ""
        else "\nWHERE " ++ String.intercalate " AND " p.whereClauses)
    ++ (if p.groupByTerms.isEmpty then ""
        else "\nGROUP BY " ++ String.intercalate ", " p.groupByTerms)
    ++ (if p.havingClauses.isEmpty then ""
        else "\nHAVING " ++ String.intercalate " AND " p.havingClauses)

/-- `generate_sql_query`, parametrised by the set-iteration order `enum`. -/
def generate_sql_query (enum : List String → List String) (q : Query)
    (sl : SemanticLayer) : Except CompileError String :=
  (compileParts enum q sl).map assembleSql

/-- Admissible set-iteration orders: any enumeration of a Python set yields
exactly its elements, each once, i.e. a permutation of the stored contents. -/
def EnumOK (enum : List String → List String) : Prop :=
  ∀ l : List String, (enum l).Perm l

/-! ### Spec-side describers used to state the filter-routing claims -/

/-- The WHERE predicate a filter produces when its grain-stripped field
resolves to a dimension, `none` otherwise. -/
def dimFilterSql? (multipleTables : Bool) (sl : SemanticLayer) (f : Filter) : Option String :=
  match get_definition (parse_date_trunc f.field).1 sl.dimensions with
  | some d =>
    some (dimensionExpr multipleTables d.table d.sql (parse_date_trunc f.field).2
      ++ " " ++ f.operator ++ " " ++ renderFilterValue f.value)
  | none => none

/-- The HAVING predicate a filter produces when its grain-stripped field
resolves to no dimension but to a metric, `none` otherwise. -/
def metricFilterSql? (multipleTables : Bool) (sl : SemanticLayer) (f : Filter) : Option String :=
  match get_definition (parse_date_trunc f.field).1 sl.dimensions with
  | some _ => none
  | none =>
    match get_definition (parse_date_trunc f.field).1 sl.metrics with
    | some m =>
      some (qualifyMetricExpr multipleTables m.table m.sql
        ++ " " ++ f.operator ++ " " ++ renderFilterValue f.value)
    | none => none

/-- A filter whose grain-stripped field matches neither list. -/
def filterUnresolved (sl : SemanticLayer) (f : Filter) : Bool :=
  (get_definition (parse_date_trunc f.field).1 sl.dimensions).isNone
    && (get_definition (parse_date_trunc f.field).1 sl.metrics).isNone

/-- A table with no declared join edge to `primary` in either direction. -/
def noJoinTo (primary : String) (joins : List JoinDef) (t : String) : Bool :=
  (find_join_definition primary t joins).isNone

/-- Substring test on strings, used to read table references off output text. -/
def containsSeg (s sub : String) : Bool :=
  isSegB sub.data s.data

/-! ### Concrete inputs used by witnesses and counterexamples -/

/-- The two-table query of the source's `test_query7`. -/
def q7Sample : Query :=
  ⟨["total_revenue"], ["order_id", "gender", "status"],
   [⟨"total_revenue", ">", FilterValue.num 1000⟩]⟩

/-- The semantic layer of the source's `test_query7`. -/
def sl7Sample : SemanticLayer :=
  ⟨[⟨"total_revenue", "SUM(sale_price)", "order_items"⟩],
   [⟨"order_id", "order_id", "order_items"⟩, ⟨"gender", "gender", "orders"⟩,
    ⟨"status", "status", "orders"⟩],
   [⟨"orders", "order_items", "order_items.order_id = orders.order_id"⟩]⟩

/-- A two-table query whose only filter resolves to a dimension on a third
table (`customers`) that no requested metric or dimension touches. -/
def qC2Sample : Query :=
  ⟨["total_revenue"], ["gender"], [⟨"region", "=", FilterValue.str "EU"⟩]⟩

/-- Semantic layer for `qC2Sample`: `region` lives on `customers`, a table with
no join edge and never collected into `tables_used`. -/
def slC2Sample : SemanticLayer :=
  ⟨[⟨"total_revenue", "SUM(sale_price)", "order_items"⟩],
   [⟨"gender", "gender", "orders"⟩, ⟨"region", "region", "customers"⟩],
   [⟨"orders", "order_items", "order_items.order_id = orders.order_id"⟩]⟩

/-- Semantic layer with one metric and one dimension on a single table. -/
def slC5Sample : SemanticLayer :=
  ⟨[⟨"total_revenue", "SUM(sale_price)", "order_items"⟩],
   [⟨"status", "status", "order_items"⟩], []⟩

/-- One dimension filter followed by one metric filter. -/
def fsC5Sample : List Filter :=
  [⟨"status", "=", FilterValue.str "Complete"⟩,
   ⟨"total_revenue", ">", FilterValue.num 1000⟩]

/-- The single-table metric+dimension query of the source's `test_query2`. -/
def qC6Sample : Query := ⟨["total_revenue"], ["status"], []⟩

/-- Clause-level compile result of `qC6Sample` over `slC5Sample`. -/
def pC6Sample : QueryParts :=
  ⟨"SUM(sale_price) AS total_revenue, status AS status", "FROM order_items", [],
   ["status"], []⟩

/-- Semantic layer whose only entry is a metric named `num_of_item`. -/
def slC9Sample : SemanticLayer :=
  ⟨[⟨"num_of_item", "SUM(num_of_item)", "orders"⟩], [], []⟩

/-- A filter carrying a `__week` grain suffix on a metric-resolved field. -/
def fC9Sample : Filter := ⟨"num_of_item__week", ">", FilterValue.num 1⟩

/-! ### General lemmas about the string primitives -/

theorem startsWithB_iff (p : List Char) : ∀ l, startsWithB p l = true ↔ ∃ u, l = p ++ u := by
  induction p with
  | nil => intro l; simp [startsWithB]
  | cons a as ih =>
    intro l
    cases l with
    | nil => simp [startsWithB]
    | cons b bs =>
      simp only [startsWithB, Bool.and_eq_true, beq_iff_eq, ih, List.cons_append,
        List.cons.injEq]
      constructor
      · rintro ⟨rfl, u, rfl⟩; exact ⟨u, rfl, rfl⟩
      · rintro ⟨u, rfl, rfl⟩; exact ⟨rfl, u, rfl⟩

theorem startsWithB_self (l : List Char) : startsWithB l l = true := by
  induction l with
  | nil => rfl
  | cons a as ih => simp [startsWithB, ih]

theorem isSuffixB_iff (p l : List Char) : isSuffixB p l = true ↔ ∃ u, l = u ++ p := by
  unfold isSuffixB
  rw [startsWithB_iff]
  constructor
  · rintro ⟨u, h⟩
    refine ⟨u.reverse, ?_⟩
    have h2 := congrArg List.reverse h
    simpa [List.reverse_append] using h2
  · rintro ⟨u, rfl⟩
    exact ⟨u.reverse, by simp [List.reverse_append]⟩

theorem isSegB_cons_false {p : List Char} {c : Char} {l : List Char}
    (h : isSegB p (c :: l) = false) : isSegB p l = false := by
  have h2 : (startsWithB p (c :: l) || isSegB p l) = false := h
  exact (Bool.or_eq_false_iff.1 h2).2

theorem isSegB_of_startsWith {p l : List Char} (hp : p ≠ [])
    (h : startsWithB p l = true) : isSegB p l = true := by
  cases l with
  | nil =>
    cases p with
    | nil => exact absurd rfl hp
    | cons x xs => exact absurd h (by simp [startsWithB])
  | cons c rest => simp [isSegB, h]

theorem findIdxOf_cons (c a : Char) (l : List Char) :
    findIdxOf c (a :: l) = if a == c then some 0 else (findIdxOf c l).map (· + 1) := rfl

theorem findIdxOf_append_of_not_mem {c : Char} {l₁ : List Char} (l₂ : List Char)
    (h : c ∉ l₁) :
    findIdxOf c (l₁ ++ l₂) = (findIdxOf c l₂).map (· + l₁.length) := by
  induction l₁ with
  | nil =>
    simp only [List.nil_append, List.length_nil]
    cases findIdxOf c l₂ <;> simp
  | cons a as ih =>
    have hac : (a == c) = false := by
      simp only [beq_eq_false_iff_ne, ne_eq]
      intro hh; exact h (hh ▸ List.mem_cons_self a as)
    have ihs := ih (fun hm => h (List.mem_cons_of_mem _ hm))
    rw [List.cons_append, findIdxOf_cons, ihs]
    simp only [hac, Bool.false_eq_true, if_false, List.length_cons]
    cases findIdxOf c l₂ with
    | none => rfl
    | some v =>
      simp only [Option.map_some']
      rfl

theorem str_data_append (s t : String) : (s ++ t).data = s.data ++ t.data := by
  cases s; cases t; rfl

theorem str_append_assoc (a b c : String) : a ++ b ++ c = a ++ (b ++ c) := by
  cases a with | mk d1 =>
  cases b with | mk d2 =>
  cases c with | mk d3 =>
  show String.mk (d1 ++ d2 ++ d3) = String.mk (d1 ++ (d2 ++ d3))
  rw [List.append_assoc]

theorem str_append_empty (s : String) : s ++ "" = s := by
  cases s with | mk d =>
  show String.mk (d ++ []) = String.mk d
  rw [List.append_nil]

theorem find?_eq_filter_head? {α : Type} (p : α → Bool) (l : List α) :
    l.find? p = (l.filter p).head? := by
  induction l with
  | nil => rfl
  | cons a as ih =>
    by_cases h : p a = true
    · rw [List.find?_cons_of_pos _ h, List.filter_cons_of_pos h, List.head?_cons]
    · have h' : p a = false := Bool.eq_false_iff.2 h
      rw [List.find?_cons_of_neg _ h, List.filter_cons_of_neg (by simp [h']), ih]

theorem dropLast_cons_ne (c : Char) {l : List Char} (h : l ≠ []) :
    (c :: l).dropLast = c :: l.dropLast := by
  cases l with
  | nil => exact absurd rfl h
  | cons x xs => rfl

theorem dropLast_append_ne (xs : List Char) {u : List Char} (h : u ≠ []) :
    (xs ++ u).dropLast = xs ++ u.dropLast := by
  induction xs with
  | nil => rfl
  | cons a as ih =>
    have hne : as ++ u ≠ [] := by
      intro h0
      exact h (List.append_eq_nil.1 h0).2
    rw [List.cons_append, dropLast_cons_ne a hne, ih, List.cons_append]

theorem isSuffixB_false_of_last_ne {a b : Char} (hab : a ≠ b) (x y l : List Char) :
    isSuffixB (x ++ [a]) (l ++ (y ++ [b])) = false := by
  apply Bool.eq_false_iff.2
  intro h
  obtain ⟨u, hu⟩ := (isSuffixB_iff _ _).1 h
  have h1 : (l ++ (y ++ [b])).getLast? = some b := by
    rw [← List.append_assoc]; exact List.getLast?_concat _
  have h2 : (u ++ (x ++ [a])).getLast? = some a := by
    rw [← List.append_assoc]; exact List.getLast?_concat _
  rw [hu, h2] at h1
  exact hab (Option.some.inj h1)

/-! ### Lemmas about `removeGo` (Python `str.replace(pat, "")`) -/

theorem removeGo_nil (p : Char) (ps : List Char) (k : Nat) : removeGo p ps k [] = [] := by
  cases k <;> rfl

theorem removeGo_succ (p : Char) (ps : List Char) (k : Nat) (c : Char) (rest : List Char) :
    removeGo p ps (k + 1) (c :: rest) = removeGo p ps k rest := rfl

theorem removeGo_zero_cons (p : Char) (ps : List Char) (c : Char) (rest : List Char) :
    removeGo p ps 0 (c :: rest) =
      if startsWithB (p :: ps) (c :: rest) then removeGo p ps ps.length rest
      else c :: removeGo p ps 0 rest := rfl

theorem removeGo_of_le (p : Char) (ps : List Char) :
    ∀ (l : List Char) (k : Nat), l.length ≤ k → removeGo p ps k l = [] := by
  intro l
  induction l with
  | nil => intro k _; exact removeGo_nil p ps k
  | cons c rest ih =>
    intro k h
    cases k with
    | zero => simp at h
    | succ k' =>
      rw [removeGo_succ]
      exact ih k' (by simpa using h)

/-- If the pattern occurs in `t ++ pat` only as its final suffix (no occurrence
survives dropping the last character), `replace(pat, "")` removes exactly that
suffix. -/
theorem removeGo_tail (p : Char) (ps : List Char) :
    ∀ t : List Char, isSegB (p :: ps) ((t ++ p :: ps).dropLast) = false →
      removeGo p ps 0 (t ++ p :: ps) = t := by
  intro t
  induction t with
  | nil =>
    intro _
    rw [List.nil_append, removeGo_zero_cons, if_pos (startsWithB_self _)]
    exact removeGo_of_le p ps ps ps.length (Nat.le_refl _)
  | cons c t' ih =>
    intro h
    rw [List.cons_append, removeGo_zero_cons]
    by_cases hsw : startsWithB (p :: ps) (c :: (t' ++ p :: ps)) = true
    · exfalso
      obtain ⟨u, hu⟩ := (startsWithB_iff _ _).1 hsw
      have hulen : u.length = t'.length + 1 := by
        have hl := congrArg List.length hu
        simp at hl; omega
      have hune : u ≠ [] := by
        intro h0; rw [h0] at hulen; simp at hulen
      rw [List.cons_append] at h
      have hd : (c :: (t' ++ p :: ps)).dropLast = (p :: ps) ++ u.dropLast := by
        rw [hu, dropLast_append_ne _ hune]
      rw [hd] at h
      have hseg : isSegB (p :: ps) ((p :: ps) ++ u.dropLast) = true :=
        isSegB_of_startsWith (by simp) ((startsWithB_iff _ _).2 ⟨u.dropLast, rfl⟩)
      rw [hseg] at h
      exact Bool.noConfusion h
    · have hsw' : startsWithB (p :: ps) (c :: (t' ++ p :: ps)) = false :=
        Bool.eq_false_iff.2 hsw
      rw [hsw']
      simp only [Bool.false_eq_true, if_false]
      have hXne : t' ++ p :: ps ≠ [] := by simp
      have hdl : ((c :: t') ++ p :: ps).dropLast = c :: (t' ++ p :: ps).dropLast := by
        rw [List.cons_append, dropLast_cons_ne c hXne]
      rw [hdl] at h
      rw [ih (isSegB_cons_false h)]

/-! ### Behaviour of `_parse_date_trunc` on suffixed names -/

theorem week_not_suffix_of_month (l : List Char) :
    isSuffixB "__week".data (l ++ "__month".data) = false := by
  have h1 : "__week".data = "__wee".data ++ ['k'] := rfl
  have h2 : "__month".data = "__mont".data ++ ['h'] := rfl
  rw [h1, h2]
  exact isSuffixB_false_of_last_ne (by decide) _ _ _

theorem week_not_suffix_of_year (l : List Char) :
    isSuffixB "__week".data (l ++ "__year".data) = false := by
  have h1 : "__week".data = "__wee".data ++ ['k'] := rfl
  have h2 : "__year".data = "__yea".data ++ ['r'] := rfl
  rw [h1, h2]
  exact isSuffixB_false_of_last_ne (by decide) _ _ _

theorem month_not_suffix_of_year (l : List Char) :
    isSuffixB "__month".data (l ++ "__year".data) = false := by
  have h1 : "__month".data = "__mont".data ++ ['h'] := rfl
  have h2 : "__year".data = "__yea".data ++ ['r'] := rfl
  rw [h1, h2]
  exact isSuffixB_false_of_last_ne (by decide) _ _ _

/-- `s.replace(pat, "")` on `t ++ pat` gives back `t` whenever the pattern has
no occurrence other than the final suffix. -/
theorem pyReplace_tail (p : Char) (ps : List Char) (pat t : String)
    (hpat : pat.data = p :: ps)
    (h : isSegB pat.data ((t.data ++ pat.data).dropLast) = false) :
    pyReplace (t ++ pat) pat = t := by
  rw [hpat] at h
  have hd : (t ++ pat).data = t.data ++ (p :: ps) := by
    rw [str_data_append, hpat]
  unfold pyReplace
  rw [hpat]
  show String.mk (removeGo p ps 0 (t ++ pat).data) = t
  rw [hd, removeGo_tail p ps t.data h]

theorem parse_week (t : String)
    (h : isSegB "__week".data ((t.data ++ "__week".data).dropLast) = false) :
    parse_date_trunc (t ++ "__week") = (t, some Grain.week) := by
  have hs : isSuffixB "__week".data (t ++ "__week").data = true := by
    rw [str_data_append]
    exact (isSuffixB_iff _ _).2 ⟨t.data, rfl⟩
  unfold parse_date_trunc
  rw [hs]
  simp only [if_true]
  rw [pyReplace_tail '_' "_week".data "__week" t rfl h]

theorem parse_month (t : String)
    (h : isSegB "__month".data ((t.data ++ "__month".data).dropLast) = false) :
    parse_date_trunc (t ++ "__month") = (t, some Grain.month) := by
  have h1 : isSuffixB "__week".data (t ++ "__month").data = false := by
    rw [str_data_append]; exact week_not_suffix_of_month t.data
  have hs : isSuffixB "__month".data (t ++ "__month").data = true := by
    rw [str_data_append]
    exact (isSuffixB_iff _ _).2 ⟨t.data, rfl⟩
  unfold parse_date_trunc
  rw [h1, hs]
  simp only [Bool.false_eq_true, if_false, if_true]
  rw [pyReplace_tail '_' "_month".data "__month" t rfl h]

theorem parse_year (t : String)
    (h : isSegB "__year".data ((t.data ++ "__year".data).dropLast) = false) :
    parse_date_trunc (t ++ "__year") = (t, some Grain.year) := by
  have h1 : isSuffixB "__week".data (t ++ "__year").data = false := by
    rw [str_data_append]; exact week_not_suffix_of_year t.data
  have h2 : isSuffixB "__month".data (t ++ "__year").data = false := by
    rw [str_data_append]; exact month_not_suffix_of_year t.data
  have hs : isSuffixB "__year".data (t ++ "__year").data = true := by
    rw [str_data_append]
    exact (isSuffixB_iff _ _).2 ⟨t.data, rfl⟩
  unfold parse_date_trunc
  rw [h1, h2, hs]
  simp only [Bool.false_eq_true, if_false, if_true]
  rw [pyReplace_tail '_' "_year".data "__year" t rfl h]

theorem parse_none (n : String)
    (h1 : isSuffixB "__week".data n.data = false)
    (h2 : isSuffixB "__month".data n.data = false)
    (h3 : isSuffixB "__year".data n.data = false) :
    parse_date_trunc n = (n, none) := by
  unfold parse_date_trunc
  rw [h1, h2, h3]
  simp

/-! ### Lemmas about the filter loop -/

theorem processFilters_ok_eq (mult : Bool) (sl : SemanticLayer) :
    ∀ (fs : List Filter) (ws hs : List String),
      processFilters mult sl fs = .ok (ws, hs) →
      ws = fs.filterMap (dimFilterSql? mult sl) ∧
      hs = fs.filterMap (metricFilterSql? mult sl) := by
  intro fs
  induction fs with
  | nil =>
    intro ws hs h
    have h2 : ws = [] ∧ hs = [] := by
      simpa [processFilters, Prod.ext_iff] using h.symm
    simp [h2.1, h2.2]
  | cons f rest ih =>
    intro ws hs h
    rcases hd : get_definition (parse_date_trunc f.field).1 sl.dimensions with _ | d
    · rcases hm : get_definition (parse_date_trunc f.field).1 sl.metrics with _ | m
      · simp [processFilters, hd, hm] at h
      · rcases hr : processFilters mult sl rest with e | wh
        · simp [processFilters, hd, hm, hr, Except.map] at h
        · have hws : ws = wh.1 ∧
              hs = (qualifyMetricExpr mult m.table m.sql ++ " " ++ f.operator ++ " "
                ++ renderFilterValue f.value) :: wh.2 := by
            have h2 := h
            simp only [processFilters, hd, hm, hr, Except.map, Except.ok.injEq,
              Prod.ext_iff] at h2
            exact ⟨h2.1.symm, h2.2.symm⟩
          obtain ⟨ihw, ihh⟩ := ih wh.1 wh.2 (by rw [hr])
          rw [hws.1, hws.2, ihw, ihh]
          constructor
          · simp [List.filterMap_cons, dimFilterSql?, hd]
          · simp [List.filterMap_cons, metricFilterSql?, hd, hm]
    · rcases hr : processFilters mult sl rest with e | wh
      · simp [processFilters, hd, hr, Except.map] at h
      · have hws : ws = (dimensionExpr mult d.table d.sql (parse_date_trunc f.field).2
              ++ " " ++ f.operator ++ " " ++ renderFilterValue f.value) :: wh.1 ∧
            hs = wh.2 := by
          have h2 := h
          simp only [processFilters, hd, hr, Except.map, Except.ok.injEq,
            Prod.ext_iff] at h2
          exact ⟨h2.1.symm, h2.2.symm⟩
        obtain ⟨ihw, ihh⟩ := ih wh.1 wh.2 (by rw [hr])
        rw [hws.1, hws.2, ihw, ihh]
        constructor
        · simp [List.filterMap_cons, dimFilterSql?, hd]
        · simp [List.filterMap_cons, metricFilterSql?, hd]

theorem processFilters_err_of_find (mult : Bool) (sl : SemanticLayer) :
    ∀ (fs : List Filter) (f : Filter),
      fs.find? (filterUnresolved sl) = some f →
      processFilters mult sl fs = .error (CompileError.unknownFilterField f.field) := by
  intro fs
  induction fs with
  | nil => intro f h; simp at h
  | cons g rest ih =>
    intro f h
    by_cases hu : filterUnresolved sl g = true
    · rw [List.find?_cons_of_pos _ hu] at h
      injection h with h
      subst h
      have hall := hu
      simp only [filterUnresolved, Bool.and_eq_true, Option.isNone_iff_eq_none] at hall
      simp [processFilters, hall.1, hall.2]
    · rw [List.find?_cons_of_neg _ hu] at h
      have hr := ih f h
      rcases h1 : get_definition (parse_date_trunc g.field).1 sl.dimensions with _ | d
      · rcases h2 : get_definition (parse_date_trunc g.field).1 sl.metrics with _ | m
        · exact absurd (by simp [filterUnresolved, h1, h2]) hu
        · simp [processFilters, h1, h2, hr, Except.map]
      · simp [processFilters, h1, hr, Except.map]

theorem processFilters_ok_of_find_none (mult : Bool) (sl : SemanticLayer) :
    ∀ fs : List Filter, fs.find? (filterUnresolved sl) = none →
      ∃ ws hs, processFilters mult sl fs = .ok (ws, hs) := by
  intro fs
  induction fs with
  | nil => intro _; exact ⟨[], [], rfl⟩
  | cons g rest ih =>
    intro h
    by_cases hu : filterUnresolved sl g = true
    · rw [List.find?_cons_of_pos _ hu] at h
      exact absurd h (by simp)
    · rw [List.find?_cons_of_neg _ hu] at h
      obtain ⟨ws, hs, hr⟩ := ih h
      rcases h1 : get_definition (parse_date_trunc g.field).1 sl.dimensions with _ | d
      · rcases h2 : get_definition (parse_date_trunc g.field).1 sl.metrics with _ | m
        · exact absurd (by simp [filterUnresolved, h1, h2]) hu
        · exact ⟨ws, (qualifyMetricExpr mult m.table m.sql ++ " " ++ g.operator ++ " "
            ++ renderFilterValue g.value) :: hs,
            by simp [processFilters, h1, h2, hr, Except.map]⟩
      · exact ⟨(dimensionExpr mult d.table d.sql (parse_date_trunc g.field).2 ++ " "
          ++ g.operator ++ " " ++ renderFilterValue g.value) :: ws, hs,
          by simp [processFilters, h1, hr, Except.map]⟩

/-! ### Lemmas about resolution and the FROM/JOIN construction -/

theorem resolveDimensions_length (defs : List SqlDef) :
    ∀ (requested : List String) (resolved : List (SqlDef × Option Grain × String)),
      resolveDimensions requested defs = .ok resolved →
      resolved.length = requested.length := by
  intro requested
  induction requested with
  | nil =>
    intro r h
    have h2 : ([] : List (SqlDef × Option Grain × String)) = r := by
      simpa [resolveDimensions] using h
    simp [← h2]
  | cons n rest ih =>
    intro r h
    rcases hd : get_definition (parse_date_trunc n).1 defs with _ | d
    · simp [resolveDimensions, hd] at h
    · rcases hr : resolveDimensions rest defs with e | rs
      · simp [resolveDimensions, hd, hr, Except.map] at h
      · have h2 : (d, (parse_date_trunc n).2, n) :: rs = r := by
          simpa [resolveDimensions, hd, hr, Except.map] using h
        rw [← h2]
        simp [ih rs hr]

theorem find_join_symm (a b : String) (joins : List JoinDef) :
    find_join_definition a b joins = find_join_definition b a joins := by
  unfold find_join_definition
  congr 1
  funext jd
  exact Bool.or_comm _ _

theorem joinLinesFor_ok (primary : String) (joins : List JoinDef) :
    ∀ rest : List String,
      (∀ t ∈ rest, (find_join_definition primary t joins).isSome = true) →
      joinLinesFor primary joins rest =
        .ok (rest.map (fun t =>
          match find_join_definition primary t joins with
          | some jd => "\nJOIN " ++ t ++ " ON " ++ jd.join
          | none => "")) := by
  intro rest
  induction rest with
  | nil => intro _; rfl
  | cons t r ih =>
    intro h
    have ht := h t (by simp)
    rcases hj : find_join_definition primary t joins with _ | jd
    · rw [hj] at ht; simp at ht
    · simp [joinLinesFor, hj, Except.map, ih (fun x hx => h x (by simp [hx]))]

theorem joinLinesFor_err (primary : String) (joins : List JoinDef) :
    ∀ (rest : List String) (t : String),
      rest.find? (noJoinTo primary joins) = some t →
      joinLinesFor primary joins rest = .error (CompileError.missingJoin primary t) := by
  intro rest
  induction rest with
  | nil => intro t h; simp at h
  | cons x r ih =>
    intro t h
    by_cases hx : noJoinTo primary joins x = true
    · rw [List.find?_cons_of_pos _ hx] at h
      injection h with h
      subst h
      have hnone : find_join_definition primary x joins = none :=
        Option.isNone_iff_eq_none.1 hx
      have hnone2 : find_join_definition x primary joins = none := by
        rw [find_join_symm]; exact hnone
      simp [joinLinesFor, hnone, hnone2]
    · rw [List.find?_cons_of_neg _ hx] at h
      rcases hj : find_join_definition primary x joins with _ | jd
      · exact absurd (by simp [noJoinTo, hj]) hx
      · simp [joinLinesFor, hj, Except.map, ih t h]

/-- Inversion for a successful `compileParts`: the intermediate values the
source computes on the way to a `QueryParts` record. -/
theorem compileParts_ok_inv (enum : List String → List String) (q : Query)
    (sl : SemanticLayer) (p : QueryParts) (h : compileParts enum q sl = .ok p) :
    ∃ mdefs resolved,
      resolveMetrics q.metrics sl.metrics = .ok mdefs ∧
      resolveDimensions q.dimensions sl.dimensions = .ok resolved ∧
      buildFromClause
        (enum (tableSetOf (mdefs.map SqlDef.table ++ resolved.map (fun r => r.1.table))))
        sl.joins = .ok p.fromClause ∧
      p.groupByTerms = groupByTermsOf
        (decide (1 < (tableSetOf
          (mdefs.map SqlDef.table ++ resolved.map (fun r => r.1.table))).length))
        resolved := by
  rcases hm : resolveMetrics q.metrics sl.metrics with e | mdefs
  · rw [show compileParts enum q sl = .error e from by simp [compileParts, hm]] at h
    exact absurd h (by simp)
  rcases hdim : resolveDimensions q.dimensions sl.dimensions with e | resolved
  · rw [show compileParts enum q sl = .error e from by simp [compileParts, hm, hdim]] at h
    exact absurd h (by simp)
  rcases hb : buildFromClause
      (enum (tableSetOf (mdefs.map SqlDef.table ++ resolved.map (fun r => r.1.table))))
      sl.joins with e | fromC
  · rw [show compileParts enum q sl = .error e from by
      simp [compileParts, hm, hdim, hb]] at h
    exact absurd h (by simp)
  rcases hf : processFilters
      (decide (1 < (tableSetOf
        (mdefs.map SqlDef.table ++ resolved.map (fun r => r.1.table))).length))
      sl q.filters with e | wh
  · rw [show compileParts enum q sl = .error e from by
      simp [compileParts, hm, hdim, hb, hf]] at h
    exact absurd h (by simp)
  have h2 : compileParts enum q sl = .ok (QueryParts.mk
      (if (metricSelectItems
            (decide (1 < (tableSetOf
              (mdefs.map SqlDef.table ++ resolved.map (fun r => r.1.table))).length)) mdefs
          ++ dimensionSelectItems
            (decide (1 < (tableSetOf
              (mdefs.map SqlDef.table ++ resolved.map (fun r => r.1.table))).length))
            resolved).isEmpty
        then "*"
        else String.intercalate ", "
          (metricSelectItems
            (decide (1 < (tableSetOf
              (mdefs.map SqlDef.table ++ resolved.map (fun r => r.1.table))).length)) mdefs
          ++ dimensionSelectItems
            (decide (1 < (tableSetOf
              (mdefs.map SqlDef.table ++ resolved.map (fun r => r.1.table))).length))
            resolved))
      fromC wh.1
      (groupByTermsOf
        (decide (1 < (tableSetOf
          (mdefs.map SqlDef.table ++ resolved.map (fun r => r.1.table))).length))
        resolved)
      wh.2) := by
    simp [compileParts, hm, hdim, hb, hf]
  rw [h2] at h
  have hok := (Except.ok.inj h).symm
  refine ⟨mdefs, resolved, rfl, rfl, ?_, ?_⟩
  · rw [hok]; exact hb
  · rw [hok]

/-! ### Evaluation of the metric-expression parser on `FUNC(arg)` shapes -/

theorem findIdxOf_eq_none_of_not_mem {c : Char} : ∀ {l : List Char}, c ∉ l →
    findIdxOf c l = none := by
  intro l
  induction l with
  | nil => intro _; rfl
  | cons a as ih =>
    intro h
    have hac : (a == c) = false := by
      simp only [beq_eq_false_iff_ne, ne_eq]
      intro hh; exact h (hh ▸ List.mem_cons_self a as)
    rw [findIdxOf_cons]
    simp only [hac, Bool.false_eq_true, if_false,
      ih (fun hm => h (List.mem_cons_of_mem _ hm)), Option.map_none']

theorem pySliceIdx_natCast (len n : Nat) : pySliceIdx len (n : Int) = min n len := by
  unfold pySliceIdx
  rw [if_neg (by omega)]
  simp

theorem qualifyMetricExpr_fn (mult : Bool) (table f a : String)
    (hf1 : '(' ∉ f.data) (hf2 : ')' ∉ f.data) (ha2 : ')' ∉ a.data) :
    qualifyMetricExpr mult table (f ++ "(" ++ a ++ ")")
      = pyStrip f ++ "(" ++ (if mult then table ++ "." ++ pyStrip a else pyStrip a) ++ ")" := by
  have hdata : (f ++ "(" ++ a ++ ")").data = f.data ++ ('(' :: (a.data ++ [')'])) := by
    rw [str_data_append, str_data_append, str_data_append]
    simp [List.append_assoc]
  have hlen : (f ++ "(" ++ a ++ ")").data.length = f.data.length + a.data.length + 2 := by
    rw [hdata]
    simp [List.length_append]
    omega
  have hfind1 : findIdxOf '(' (f ++ "(" ++ a ++ ")").data = some f.data.length := by
    rw [hdata, findIdxOf_append_of_not_mem _ hf1, findIdxOf_cons]
    simp
  have hdrop : (f ++ "(" ++ a ++ ")").data.drop f.data.length = '(' :: (a.data ++ [')']) := by
    rw [hdata]
    exact List.drop_left _ _
  have hfindA : findIdxOf ')' (a.data ++ [')']) = some a.data.length := by
    rw [findIdxOf_append_of_not_mem _ ha2]
    simp [findIdxOf]
  have hfind2 : findIdxOf ')' (f ++ "(" ++ a ++ ")").data
      = some (a.data.length + 1 + f.data.length) := by
    rw [hdata, findIdxOf_append_of_not_mem _ hf2, findIdxOf_cons]
    have h10 : ('(' == ')') = false := by decide
    rw [h10]
    simp [hfindA]
  have hpf : pyFindFrom (f ++ "(" ++ a ++ ")").data ')' f.data.length
      = some (a.data.length + 1 + f.data.length) := by
    unfold pyFindFrom
    rw [hdrop, findIdxOf_cons]
    have h10 : ('(' == ')') = false := by decide
    rw [h10]
    simp [hfindA]
  have hslice1 : pySlice (f ++ "(" ++ a ++ ")") 0 (f.data.length : Int) = f := by
    unfold pySlice
    have hi : pySliceIdx (f ++ "(" ++ a ++ ")").data.length 0 = 0 := by
      unfold pySliceIdx
      norm_num
    have hj : pySliceIdx (f ++ "(" ++ a ++ ")").data.length (f.data.length : Int)
        = f.data.length := by
      rw [pySliceIdx_natCast, hlen]
      omega
    rw [hi, hj, List.drop_zero, hdata, List.take_left]
  have hslice2 : pySlice (f ++ "(" ++ a ++ ")") ((f.data.length : Int) + 1)
      ((a.data.length + 1 + f.data.length : Nat) : Int) = a := by
    unfold pySlice
    have hi : pySliceIdx (f ++ "(" ++ a ++ ")").data.length ((f.data.length : Int) + 1)
        = f.data.length + 1 := by
      unfold pySliceIdx
      rw [if_neg (by omega), hlen]
      have h11 : ((f.data.length : Int) + 1).toNat = f.data.length + 1 := by omega
      rw [h11]
      omega
    have hj : pySliceIdx (f ++ "(" ++ a ++ ")").data.length
        ((a.data.length + 1 + f.data.length : Nat) : Int)
        = f.data.length + 1 + a.data.length := by
      rw [pySliceIdx_natCast, hlen]
      omega
    rw [hi, hj]
    have htake : (f ++ "(" ++ a ++ ")").data.take (f.data.length + 1 + a.data.length)
        = f.data ++ '(' :: a.data := by
      rw [hdata,
        show f.data ++ ('(' :: (a.data ++ [')'])) = (f.data ++ '(' :: a.data) ++ [')'] from
          by simp]
      exact List.take_left' (by simp; omega)
    have hdrop2 : (f.data ++ '(' :: a.data).drop (f.data.length + 1) = a.data := by
      rw [show f.data ++ '(' :: a.data = (f.data ++ ['(']) ++ a.data from by simp,
        show f.data.length + 1 = (f.data ++ ['(']).length from by simp]
      exact List.drop_left _ _
    rw [htake, hdrop2]
  unfold qualifyMetricExpr
  rw [hfind1, hfind2]
  simp only [Option.isSome_some, Bool.and_self, if_true, Option.getD_some, hpf, hslice1,
    hslice2]

theorem qualifyMetricExpr_noParen (mult : Bool) (table sql : String)
    (h : '(' ∉ sql.data) :
    qualifyMetricExpr mult table sql = if mult then table ++ "." ++ sql else sql := by
  unfold qualifyMetricExpr
  rw [findIdxOf_eq_none_of_not_mem h]
  simp

theorem isEmpty_eq_of_length {α β : Type} {l1 : List α} {l2 : List β}
    (h : l1.length = l2.length) : l1.isEmpty = l2.isEmpty := by
  cases l1 <;> cases l2 <;> simp_all

/-! ### The claims -/

set_option maxRecDepth 8192 in
/-- C1 (code bug): the spec requires the distinct table names to be collected
in deterministic first-appearance order (metric tables in request order, then
dimension tables), the first being the anchor of FROM and the rest giving the
JOIN order.  The source stores them in a Python `set` and anchors at
`list(tables_used)[0]`, so the anchor and join order depend on the set's
unspecified iteration order: two admissible enumerations of the same set
contents produce different SQL for the very input of the source's
`test_query7` (whose own assertion already accepts both outputs). -/
theorem C1_anchor_set_order :
    EnumOK (fun l => l) ∧ EnumOK (fun l => l.reverse) ∧
    generate_sql_query (fun l => l) q7Sample sl7Sample =
      .ok ("SELECT SUM(order_items.sale_price) AS total_revenue, order_items.order_id AS order_id, orders.gender AS gender, orders.status AS status\nFROM order_items\nJOIN orders ON order_items.order_id = orders.order_id\nGROUP BY order_items.order_id, orders.gender, orders.status\nHAVING SUM(order_items.sale_price) > 1000") ∧
    generate_sql_query (fun l => l.reverse) q7Sample sl7Sample =
      .ok ("SELECT SUM(order_items.sale_price) AS total_revenue, order_items.order_id AS order_id, orders.gender AS gender, orders.status AS status\nFROM orders\nJOIN order_items ON order_items.order_id = orders.order_id\nGROUP BY order_items.order_id, orders.gender, orders.status\nHAVING SUM(order_items.sale_price) > 1000") ∧
    ("SELECT SUM(order_items.sale_price) AS total_revenue, order_items.order_id AS order_id, orders.gender AS gender, orders.status AS status\nFROM order_items\nJOIN orders ON order_items.order_id = orders.order_id\nGROUP BY order_items.order_id, orders.gender, orders.status\nHAVING SUM(order_items.sale_price) > 1000" : String) ≠
      "SELECT SUM(order_items.sale_price) AS total_revenue, order_items.order_id AS order_id, orders.gender AS gender, orders.status AS status\nFROM orders\nJOIN order_items ON order_items.order_id = orders.order_id\nGROUP BY order_items.order_id, orders.gender, orders.status\nHAVING SUM(order_items.sale_price) > 1000" :=
  ⟨fun l => List.Perm.refl l, fun l => List.reverse_perm l, by rfl, by rfl, by decide⟩

set_option maxRecDepth 8192 in
/-- C2 (code bug): referential closure fails.  The filter loop qualifies a
dimension-resolved filter with that dimension's table even when the table was
never collected into `tables_used` (only requested metrics and dimensions
contribute tables).  On `qC2Sample` the compile succeeds and the WHERE clause
references `customers`, yet no `FROM customers` or `JOIN customers` appears. -/
theorem C2_referential_closure_violated :
    generate_sql_query (fun l => l) qC2Sample slC2Sample =
      .ok ("SELECT SUM(order_items.sale_price) AS total_revenue, orders.gender AS gender\nFROM order_items\nJOIN orders ON order_items.order_id = orders.order_id\nWHERE customers.region = 'EU'\nGROUP BY orders.gender") ∧
    (compileParts (fun l => l) qC2Sample slC2Sample).map QueryParts.whereClauses =
      .ok ["customers.region = 'EU'"] ∧
    containsSeg "SELECT SUM(order_items.sale_price) AS total_revenue, orders.gender AS gender\nFROM order_items\nJOIN orders ON order_items.order_id = orders.order_id\nWHERE customers.region = 'EU'\nGROUP BY orders.gender" "customers." = true ∧
    containsSeg "SELECT SUM(order_items.sale_price) AS total_revenue, orders.gender AS gender\nFROM order_items\nJOIN orders ON order_items.order_id = orders.order_id\nWHERE customers.region = 'EU'\nGROUP BY orders.gender" "FROM customers" = false ∧
    containsSeg "SELECT SUM(order_items.sale_price) AS total_revenue, orders.gender AS gender\nFROM order_items\nJOIN orders ON order_items.order_id = orders.order_id\nWHERE customers.region = 'EU'\nGROUP BY orders.gender" "JOIN customers" = false :=
  ⟨by rfl, by rfl, by rfl, by rfl, by rfl⟩

/-- C3 counterexample: `_parse_date_trunc` uses `str.replace`, which removes
every occurrence of the suffix, not only the trailing one.  On
`"a__week__b__week"` the claim's "exactly the name with that trailing suffix
removed" demands base `"a__week__b"`, but the code produces `"a__b"`. -/
theorem C3_counterexample :
    parse_date_trunc "a__week__b__week" = ("a__b", some Grain.week) ∧
    parse_date_trunc "a__week__b__week" ≠ (("a__week__b" : String), some Grain.week) :=
  ⟨by rfl, by decide⟩

/-- C3 (amended): for a name ending in a grain suffix the resolver strips
every occurrence of that suffix string — which coincides with stripping just
the trailing suffix exactly when the suffix occurs nowhere else in the name
(the hypotheses below); a name with no grain suffix is returned unchanged with
no grain; lookup is by exact string match returning the first matching
definition (the head of the filtered list). -/
theorem C3_resolver (t n : String) (defs : List SqlDef)
    (hw : isSegB "__week".data ((t.data ++ "__week".data).dropLast) = false)
    (hm : isSegB "__month".data ((t.data ++ "__month".data).dropLast) = false)
    (hy : isSegB "__year".data ((t.data ++ "__year".data).dropLast) = false)
    (h1 : isSuffixB "__week".data n.data = false)
    (h2 : isSuffixB "__month".data n.data = false)
    (h3 : isSuffixB "__year".data n.data = false) :
    parse_date_trunc (t ++ "__week") = (t, some Grain.week) ∧
    parse_date_trunc (t ++ "__month") = (t, some Grain.month) ∧
    parse_date_trunc (t ++ "__year") = (t, some Grain.year) ∧
    parse_date_trunc n = (n, none) ∧
    get_definition n defs = (defs.filter (fun d => d.name == n)).head? :=
  ⟨parse_week t hw, parse_month t hm, parse_year t hy, parse_none n h1 h2 h3,
   find?_eq_filter_head? _ defs⟩

/-- Witness for C3: concrete instantiation at `t = "created_at"`,
`n = "status"`. -/
theorem C3_witness :
    (isSegB "__week".data (("created_at".data ++ "__week".data).dropLast) = false) ∧
    (parse_date_trunc ("created_at" ++ "__week") = ("created_at", some Grain.week) ∧
     parse_date_trunc ("created_at" ++ "__month") = ("created_at", some Grain.month) ∧
     parse_date_trunc ("created_at" ++ "__year") = ("created_at", some Grain.year) ∧
     parse_date_trunc "status" = ("status", none) ∧
     get_definition "status" [(⟨"status", "status", "orders"⟩ : SqlDef)] =
       ([(⟨"status", "status", "orders"⟩ : SqlDef)].filter
         (fun d => d.name == "status")).head?) :=
  ⟨by decide,
   C3_resolver "created_at" "status" [⟨"status", "status", "orders"⟩]
     (by decide) (by decide) (by decide) (by decide) (by decide) (by decide)⟩

/-- C4: a metric SQL expression of the exact shape `FUNC(arg)` — one function
call, no nested parentheses, `FUNC` and `arg` already trimmed — is projected
as `FUNC(table.arg)` in a multi-table compile and left unqualified in a
single-table compile, and an expression with no function call is qualified as
a whole (`table.expression`) in a multi-table compile; the projection is
aliased with the metric's name. -/
theorem C4_metric_projection (f a table nm : String)
    (hf1 : '(' ∉ f.data) (hf2 : ')' ∉ f.data)
    (ha1 : '(' ∉ a.data) (ha2 : ')' ∉ a.data)
    (hfs : pyStrip f = f) (has : pyStrip a = a) :
    qualifyMetricExpr true table (f ++ "(" ++ a ++ ")")
      = f ++ "(" ++ table ++ "." ++ a ++ ")" ∧
    qualifyMetricExpr false table (f ++ "(" ++ a ++ ")") = f ++ "(" ++ a ++ ")" ∧
    (∀ sql : String, '(' ∉ sql.data →
      qualifyMetricExpr true table sql = table ++ "." ++ sql ∧
      qualifyMetricExpr false table sql = sql) ∧
    metricSelectItems true [⟨nm, f ++ "(" ++ a ++ ")", table⟩]
      = [f ++ "(" ++ table ++ "." ++ a ++ ")" ++ " AS " ++ nm] := by
  have h1 := qualifyMetricExpr_fn true table f a hf1 hf2 ha2
  have h2 := qualifyMetricExpr_fn false table f a hf1 hf2 ha2
  rw [hfs, has] at h1 h2
  refine ⟨?_, ?_, ?_, ?_⟩
  · rw [h1]
    simp [str_append_assoc]
  · rw [h2]
    simp
  · intro sql hs
    exact ⟨by simpa using qualifyMetricExpr_noParen true table sql hs,
           by simpa using qualifyMetricExpr_noParen false table sql hs⟩
  · simp only [metricSelectItems, List.map_cons, List.map_nil, h1]
    simp [str_append_assoc]

/-- Witness for C4: `SUM(sale_price)` on table `order_items`. -/
theorem C4_witness :
    ('(' ∉ "SUM".data) ∧
    (qualifyMetricExpr true "order_items" ("SUM" ++ "(" ++ "sale_price" ++ ")")
        = "SUM" ++ "(" ++ "order_items" ++ "." ++ "sale_price" ++ ")" ∧
      qualifyMetricExpr false "order_items" ("SUM" ++ "(" ++ "sale_price" ++ ")")
        = "SUM" ++ "(" ++ "sale_price" ++ ")" ∧
      (∀ sql : String, '(' ∉ sql.data →
        qualifyMetricExpr true "order_items" sql = "order_items" ++ "." ++ sql ∧
        qualifyMetricExpr false "order_items" sql = sql) ∧
      metricSelectItems true
          [⟨"total_revenue", "SUM" ++ "(" ++ "sale_price" ++ ")", "order_items"⟩]
        = ["SUM" ++ "(" ++ "order_items" ++ "." ++ "sale_price" ++ ")" ++ " AS "
            ++ "total_revenue"]) :=
  ⟨by decide,
   C4_metric_projection "SUM" "sale_price" "order_items" "total_revenue"
     (by decide) (by decide) (by decide) (by decide) (by rfl) (by rfl)⟩

/-- C5: in a successful compile the WHERE list is exactly the rendered
predicates of the filters whose grain-stripped field resolves to a dimension
(in order), the HAVING list exactly those of the filters resolving to no
dimension but to a metric — so a dimension-resolved filter never reaches
HAVING and a metric-resolved one never reaches WHERE — and the loop fails
with `UnknownFilterFieldError` on the first filter matching neither list
(conversely, it succeeds when every filter resolves). -/
theorem C5_filter_routing (mult : Bool) (sl : SemanticLayer) (fs : List Filter) :
    (∀ ws hs, processFilters mult sl fs = .ok (ws, hs) →
      ws = fs.filterMap (dimFilterSql? mult sl) ∧
      hs = fs.filterMap (metricFilterSql? mult sl)) ∧
    (∀ f, fs.find? (filterUnresolved sl) = some f →
      processFilters mult sl fs = .error (CompileError.unknownFilterField f.field)) ∧
    (fs.find? (filterUnresolved sl) = none →
      ∃ ws hs, processFilters mult sl fs = .ok (ws, hs)) :=
  ⟨fun ws hs h => processFilters_ok_eq mult sl fs ws hs h,
   fun f h => processFilters_err_of_find mult sl fs f h,
   fun h => processFilters_ok_of_find_none mult sl fs h⟩

/-- Witness for C5: a dimension filter routed to WHERE and a metric filter
routed to HAVING. -/
theorem C5_witness :
    ((["status = 'Complete'"] : List String)
        = fsC5Sample.filterMap (dimFilterSql? false slC5Sample) ∧
      (["SUM(sale_price) > 1000"] : List String)
        = fsC5Sample.filterMap (metricFilterSql? false slC5Sample)) :=
  (C5_filter_routing false slC5Sample fsC5Sample).1
    ["status = 'Complete'"] ["SUM(sale_price) > 1000"] (by rfl)

/-- C6: a successful compile has exactly one GROUP BY term per requested
dimension (its possibly qualified, possibly `DATE_TRUNC`-wrapped expression,
independent of any metrics), and the assembled SQL carries a GROUP BY line
exactly when at least one dimension was requested. -/
theorem C6_group_by (enum : List String → List String) (q : Query) (sl : SemanticLayer)
    (p : QueryParts) (h : compileParts enum q sl = .ok p) :
    p.groupByTerms.length = q.dimensions.length ∧
    (p.groupByTerms = [] ↔ q.dimensions = []) ∧
    (∃ resolved mult,
      resolveDimensions q.dimensions sl.dimensions = .ok resolved ∧
      p.groupByTerms = resolved.map (fun r => dimensionExpr mult r.1.table r.1.sql r.2.1)) ∧
    assembleSql p =
      "SELECT " ++ p.selectClause ++ "\n" ++ p.fromClause
        ++ (if p.whereClauses.isEmpty then ""
            else "\nWHERE " ++ String.intercalate " AND " p.whereClauses)
        ++ (if q.dimensions.isEmpty then ""
            else "\nGROUP BY " ++ String.intercalate ", " p.groupByTerms)
        ++ (if p.havingClauses.isEmpty then ""
            else "\nHAVING " ++ String.intercalate " AND " p.havingClauses) := by
  obtain ⟨mdefs, resolved, hm, hdim, hb, hgb⟩ := compileParts_ok_inv enum q sl p h
  have hlen : p.groupByTerms.length = q.dimensions.length := by
    rw [hgb]
    unfold groupByTermsOf
    rw [List.length_map]
    exact resolveDimensions_length sl.dimensions q.dimensions resolved hdim
  refine ⟨hlen, ⟨?_, ?_⟩, ⟨resolved, _, hdim, hgb⟩, ?_⟩
  · intro hnil
    have h0 : q.dimensions.length = 0 := by rw [← hlen, hnil]; rfl
    exact List.length_eq_zero.1 h0
  · intro hnil
    have h0 : p.groupByTerms.length = 0 := by rw [hlen, hnil]; rfl
    exact List.length_eq_zero.1 h0
  · have hbe : p.groupByTerms.isEmpty = q.dimensions.isEmpty :=
      isEmpty_eq_of_length hlen
    unfold assembleSql
    rw [hbe]

/-- Witness for C6: the source's `test_query2` input, one metric and one
dimension on a single table. -/
theorem C6_witness :
    (compileParts (fun l => l) qC6Sample slC5Sample = .ok pC6Sample) ∧
    (pC6Sample.groupByTerms.length = qC6Sample.dimensions.length ∧
     (pC6Sample.groupByTerms = [] ↔ qC6Sample.dimensions = []) ∧
     (∃ resolved mult,
       resolveDimensions qC6Sample.dimensions slC5Sample.dimensions = .ok resolved ∧
       pC6Sample.groupByTerms
         = resolved.map (fun r => dimensionExpr mult r.1.table r.1.sql r.2.1)) ∧
     assembleSql pC6Sample =
       "SELECT " ++ pC6Sample.selectClause ++ "\n" ++ pC6Sample.fromClause
         ++ (if pC6Sample.whereClauses.isEmpty then ""
             else "\nWHERE " ++ String.intercalate " AND " pC6Sample.whereClauses)
         ++ (if qC6Sample.dimensions.isEmpty then ""
             else "\nGROUP BY " ++ String.intercalate ", " pC6Sample.groupByTerms)
         ++ (if pC6Sample.havingClauses.isEmpty then ""
             else "\nHAVING " ++ String.intercalate " AND " pC6Sample.havingClauses)) :=
  ⟨by rfl, C6_group_by (fun l => l) qC6Sample slC5Sample pC6Sample (by rfl)⟩

/-- C7: join lookup matches either edge direction (the edge list search is
symmetric, so the source's second, swapped lookup can never differ); when
every non-anchor table has an edge to the anchor the FROM clause is the anchor
followed by one JOIN line per table, in order, using the found edge's literal
predicate text verbatim; and the first non-anchor table with no edge to the
anchor aborts the compile with `MissingJoinError` naming the anchor and that
table. -/
theorem C7_join_resolution (primary : String) (rest : List String) (joins : List JoinDef) :
    (∀ a b, find_join_definition a b joins = find_join_definition b a joins) ∧
    ((∀ t ∈ rest, (find_join_definition primary t joins).isSome = true) →
      buildFromClause (primary :: rest) joins =
        .ok ("FROM " ++ primary ++ strConcat (rest.map (fun t =>
          match find_join_definition primary t joins with
          | some jd => "\nJOIN " ++ t ++ " ON " ++ jd.join
          | none => "")))) ∧
    (∀ t, rest.find? (noJoinTo primary joins) = some t →
      buildFromClause (primary :: rest) joins =
        .error (CompileError.missingJoin primary t)) := by
  refine ⟨fun a b => find_join_symm a b joins, ?_, ?_⟩
  · intro hall
    cases rest with
    | nil =>
      simp [buildFromClause, strConcat, str_append_empty]
    | cons x r =>
      rw [show buildFromClause (primary :: x :: r) joins =
          (joinLinesFor primary joins (x :: r)).map
            (fun ls => "FROM " ++ primary ++ strConcat ls) from rfl]
      rw [joinLinesFor_ok primary joins (x :: r) hall]
      rfl
  · intro t ht
    cases rest with
    | nil => simp at ht
    | cons x r =>
      rw [show buildFromClause (primary :: x :: r) joins =
          (joinLinesFor primary joins (x :: r)).map
            (fun ls => "FROM " ++ primary ++ strConcat ls) from rfl]
      rw [joinLinesFor_err primary joins (x :: r) t ht]
      rfl

/-- Witness for C7: the `orders`/`order_items` edge is found from the
`order_items` anchor, while `customers` has no edge and raises. -/
theorem C7_witness :
    (∀ t ∈ (["orders"] : List String),
      (find_join_definition "order_items" t sl7Sample.joins).isSome = true) ∧
    buildFromClause ["order_items", "orders"] sl7Sample.joins =
      .ok ("FROM " ++ "order_items" ++ strConcat ((["orders"] : List String).map (fun t =>
        match find_join_definition "order_items" t sl7Sample.joins with
        | some jd => "\nJOIN " ++ t ++ " ON " ++ jd.join
        | none => ""))) ∧
    buildFromClause ["order_items", "customers"] sl7Sample.joins =
      .error (CompileError.missingJoin "order_items" "customers") :=
  ⟨by decide,
   (C7_join_resolution "order_items" ["orders"] sl7Sample.joins).2.1 (by decide),
   (C7_join_resolution "order_items" ["customers"] sl7Sample.joins).2.2 "customers"
     (by rfl)⟩

/-- C8: with no requested metrics and no requested dimensions the compile
fails with `NoTablesError`; and every successful compile's FROM clause starts
with `FROM t` for a table `t` drawn from the tables of the resolved metrics
and dimensions. -/
theorem C8_no_tables (enum : List String → List String) (q : Query) (sl : SemanticLayer)
    (hEnum : EnumOK enum) :
    (q.metrics = [] → q.dimensions = [] →
      generate_sql_query enum q sl = .error CompileError.noTables) ∧
    (∀ p, compileParts enum q sl = .ok p →
      generate_sql_query enum q sl = .ok (assembleSql p) ∧
      ∃ mdefs resolved t tail,
        resolveMetrics q.metrics sl.metrics = .ok mdefs ∧
        resolveDimensions q.dimensions sl.dimensions = .ok resolved ∧
        t ∈ tableSetOf (mdefs.map SqlDef.table ++ resolved.map (fun r => r.1.table)) ∧
        p.fromClause = "FROM " ++ t ++ tail) := by
  constructor
  · intro h1 h2
    have he : enum [] = [] := (hEnum []).eq_nil
    have hm : resolveMetrics q.metrics sl.metrics = .ok [] := by rw [h1]; rfl
    have hd : resolveDimensions q.dimensions sl.dimensions = .ok [] := by rw [h2]; rfl
    have hcp : compileParts enum q sl = .error CompileError.noTables := by
      simp [compileParts, hm, hd, tableSetOf, he, buildFromClause]
    simp [generate_sql_query, hcp, Except.map]
  · intro p hp
    obtain ⟨mdefs, resolved, hm, hdim, hb, hgb⟩ := compileParts_ok_inv enum q sl p hp
    refine ⟨by simp [generate_sql_query, hp, Except.map], ?_⟩
    rcases henum : enum (tableSetOf
        (mdefs.map SqlDef.table ++ resolved.map (fun r => r.1.table))) with _ | ⟨t0, rest⟩
    · rw [henum] at hb
      simp [buildFromClause] at hb
    · have hmem : t0 ∈ tableSetOf
          (mdefs.map SqlDef.table ++ resolved.map (fun r => r.1.table)) := by
        have hp2 : t0 ∈ enum (tableSetOf
            (mdefs.map SqlDef.table ++ resolved.map (fun r => r.1.table))) := by
          rw [henum]
          exact List.mem_cons_self _ _
        exact (hEnum _).mem_iff.1 hp2
      cases rest with
      | nil =>
        rw [henum] at hb
        have hb2 : "FROM " ++ t0 = p.fromClause := by
          simpa [buildFromClause] using hb
        exact ⟨mdefs, resolved, t0, "", hm, hdim, hmem,
          by rw [← hb2]; exact (str_append_empty _).symm⟩
      | cons x r =>
        rw [henum] at hb
        rw [show buildFromClause (t0 :: x :: r) sl.joins =
            (joinLinesFor t0 sl.joins (x :: r)).map
              (fun ls => "FROM " ++ t0 ++ strConcat ls) from rfl] at hb
        rcases hjl : joinLinesFor t0 sl.joins (x :: r) with e | ls
        · rw [hjl] at hb
          simp [Except.map] at hb
        · rw [hjl] at hb
          have hb2 : "FROM " ++ t0 ++ strConcat ls = p.fromClause := by
            simpa [Except.map] using hb
          exact ⟨mdefs, resolved, t0, strConcat ls, hm, hdim, hmem, hb2.symm⟩

/-- Witness for C8: the empty query fails with `NoTablesError`. -/
theorem C8_witness :
    EnumOK (fun l => l) ∧
    generate_sql_query (fun l => l) (⟨[], [], []⟩ : Query) (⟨[], [], []⟩ : SemanticLayer)
      = .error CompileError.noTables :=
  ⟨fun l => List.Perm.refl l,
   (C8_no_tables (fun l => l) ⟨[], [], []⟩ ⟨[], [], []⟩ (fun l => List.Perm.refl l)).1
     rfl rfl⟩

/-- C9: a filter whose grain-stripped field resolves to a metric (after the
dimension lookup misses) produces a HAVING predicate built from the metric's
function-aware, possibly qualified expression only — the parsed grain is
never consulted, so any `__week`/`__month`/`__year` suffix is silently
dropped — whereas the same grain on a dimension-resolved filter wraps the
WHERE predicate's expression in `DATE_TRUNC(…, GRAIN)`. -/
theorem C9_metric_filter_grain (mult : Bool) (sl : SemanticLayer) (f : Filter)
    (b : String) (g : Grain) (m d : SqlDef)
    (hparse : parse_date_trunc f.field = (b, some g)) :
    (get_definition b sl.dimensions = none → get_definition b sl.metrics = some m →
      processFilters mult sl [f] =
        .ok ([], [qualifyMetricExpr mult m.table m.sql ++ " " ++ f.operator ++ " "
          ++ renderFilterValue f.value])) ∧
    (get_definition b sl.dimensions = some d →
      processFilters mult sl [f] =
        .ok ([dimensionExpr mult d.table d.sql (some g) ++ " " ++ f.operator ++ " "
          ++ renderFilterValue f.value], [])) ∧
    dimensionExpr mult d.table d.sql (some g)
      = "DATE_TRUNC(" ++ (if mult then d.table ++ "." ++ d.sql else d.sql) ++ ", "
        ++ Grain.toSql g ++ ")" := by
  refine ⟨?_, ?_, rfl⟩
  · intro hd hm
    simp [processFilters, hparse, hd, hm, Except.map]
  · intro hd
    simp [processFilters, hparse, hd, Except.map]

/-- Witness for C9: the field `num_of_item__week` resolves to the metric
`num_of_item`; the predicate shows no `DATE_TRUNC`. -/
theorem C9_witness :
    parse_date_trunc fC9Sample.field = ("num_of_item", some Grain.week) ∧
    processFilters false slC9Sample [fC9Sample] =
      .ok ([], ["SUM(num_of_item) > 1"]) :=
  ⟨by rfl,
   (C9_metric_filter_grain false slC9Sample fC9Sample "num_of_item" Grain.week
       ⟨"num_of_item", "SUM(num_of_item)", "orders"⟩ ⟨"", "", ""⟩ (by rfl)).1
     (by rfl) (by rfl)⟩

/-- C10: table determination runs before filter resolution — with no metrics
and no dimensions the compile fails with `NoTablesError` whatever the
filters, so an unknown filter field can never surface as
`UnknownFilterFieldError` from such a query. -/
theorem C10_tables_before_filters (enum : List String → List String)
    (sl : SemanticLayer) (fs : List Filter) (hEnum : EnumOK enum) :
    generate_sql_query enum (⟨[], [], fs⟩ : Query) sl = .error CompileError.noTables := by
  have he : enum [] = [] := (hEnum []).eq_nil
  have hcp : compileParts enum (⟨[], [], fs⟩ : Query) sl
      = .error CompileError.noTables := by
    simp [compileParts, resolveMetrics, resolveDimensions, tableSetOf, he, buildFromClause]
  simp [generate_sql_query, hcp, Except.map]

/-- Witness for C10: a query with only an unknown filter field still fails
with `NoTablesError`, not `UnknownFilterFieldError`. -/
theorem C10_witness :
    EnumOK (fun l => l) ∧
    generate_sql_query (fun l => l)
        (⟨[], [], [⟨"ghost_field", "=", FilterValue.str "x"⟩]⟩ : Query)
        (⟨[], [], []⟩ : SemanticLayer)
      = .error CompileError.noTables :=
  ⟨fun l => List.Perm.refl l,
   C10_tables_before_filters (fun l => l) ⟨[], [], []⟩
     [⟨"ghost_field", "=", FilterValue.str "x"⟩] (fun l => List.Perm.refl l)⟩

/-! ### Fidelity checks: the embedding reproduces the source's own test
expectations (`test_base_sample` and `test_query8`). -/

theorem source_test_base_sample_reproduced :
    generate_sql_query (fun l => l) (⟨["order_count"], [], []⟩ : Query)
        (⟨[⟨"order_count", "COUNT(*)", "orders"⟩], [], []⟩ : SemanticLayer)
      = .ok "SELECT COUNT(*) AS order_count\nFROM orders" := by
  rfl

set_option maxRecDepth 8192 in
theorem source_test_query8_reproduced :
    generate_sql_query (fun l => l)
        (⟨["total_revenue"], ["ordered_date__week"],
          [⟨"ordered_date", ">=", FilterValue.str "2024-01-01"⟩]⟩ : Query)
        (⟨[⟨"total_revenue", "SUM(sale_price)", "order_items"⟩],
          [⟨"ordered_date", "created_at", "orders"⟩],
          [⟨"orders", "order_items", "order_items.order_id = orders.order_id"⟩]⟩ :
          SemanticLayer)
      = .ok ("SELECT SUM(order_items.sale_price) AS total_revenue, DATE_TRUNC(orders.created_at, WEEK) AS ordered_date__week\nFROM order_items\nJOIN orders ON order_items.order_id = orders.order_id\nWHERE orders.created_at >= '2024-01-01'\nGROUP BY DATE_TRUNC(orders.created_at, WEEK)") := by
  rfl

end ParseSql
